import Mathlib

/-!
Shallow embedding of the Scan Orchestration & Enrichment Pipeline of
`app.py` (the-eye-of-sauron): JSON field extraction, the item-enrichment
path (`process_and_queue_api_item` / `generate_summary_and_update`), the
LLM gate (`get_llm_summary`), the pause/cancel/rate-limit flag routes, and
the paginated scanner (`perform_api_scan`).

External effects are made explicit: queue puts become a list of events,
thread-pool submissions become returned task values, the Mongo content
collection becomes a lookup function, and the flag objects become record
fields threaded through each function.  Reason strings attached to status
events and the Mongo-side analytics writes are elided from the event
payloads; the events themselves and their order are kept.
-/

namespace Sauron

/-- Python/JSON values as produced by `response.json()`: `None`, booleans,
numbers (modelled as integers), strings, lists and dicts. -/
inductive J where
  | null : J
  | b : Bool → J
  | i : Int → J
  | s : String → J
  | arr : List J → J
  | obj : List (String × J) → J

/-- Python truthiness on JSON values: `None`, `False`, `0`, `""`, `[]`, `{}`
are falsy. -/
def J.isFalsy : J → Bool
  | .null => true
  | .b x => !x
  | .i n => n == 0
  | .s str => str == ""
  | .arr xs => xs.isEmpty
  | .obj fs => fs.isEmpty

mutual

/-- Python `repr` on JSON values (strings quoted), used by `str` on
containers. -/
def J.pyRepr : J → String
  | .null => "None"
  | .b true => "True"
  | .b false => "False"
  | .i n => toString n
  | .s str => "\x27" ++ str ++ "\x27"
  | .arr xs => "[" ++ String.intercalate ", " (pyReprList xs) ++ "]"
  | .obj fs => "\x7b" ++ String.intercalate ", " (pyReprFields fs) ++ "\x7d"

/-- Python `repr` of each element of a list. -/
def pyReprList : List J → List String
  | [] => []
  | x :: xs => x.pyRepr :: pyReprList xs

/-- Python `repr` of each `'key': value` entry of a dict. -/
def pyReprFields : List (String × J) → List String
  | [] => []
  | kv :: fs => ("\x27" ++ kv.1 ++ "\x27: " ++ kv.2.pyRepr) :: pyReprFields fs

end

/-- Python `str` on JSON values (a bare string stays unquoted). -/
def J.pyStr : J → String
  | .s str => str
  | v => v.pyRepr

/-- Python `str` applied to an optional lookup result; `str(None) = "None"`. -/
def pyStrOpt : Option J → String
  | none => "None"
  | some v => v.pyStr

/-- Character lists obtained from Python `s.split(sep)` for a
single-character separator. -/
def pySplitChar (sep : Char) : List Char → List (List Char)
  | [] => [[]]
  | x :: xs =>
      match pySplitChar sep xs with
      | [] => if x == sep then [[], []] else [[x]]
      | y :: ys => if x == sep then [] :: y :: ys else (x :: y) :: ys

/-- Python `s.split(sep)` for a single-character separator. -/
def pySplit (s : String) (sep : Char) : List String :=
  (pySplitChar sep s.toList).map (fun cs => ⟨cs⟩)

/-- Does `needle` occur as a contiguous sublist of the second argument? -/
def sublistAt : List Char → List Char → Bool
  | needle, [] => needle.isEmpty
  | needle, x :: t => List.isPrefixOf needle (x :: t) || sublistAt needle t

/-- Python `needle in hay` on strings. -/
def pyIn (needle hay : String) : Bool :=
  sublistAt needle.toList hay.toList

/-- The Python exceptions relevant to `operator.getitem`; `other` stands for
every exception outside the set caught by `get_nested_value`. -/
inductive PyExc where
  | keyError : PyExc
  | typeError : PyExc
  | indexError : PyExc
  | other : PyExc
deriving Repr, DecidableEq

/-- CPython `operator.getitem(container, key)` for a string `key` on JSON
data: dict lookup raises `KeyError` when the key is absent; lists and
strings raise `TypeError` on a string index; scalars are not subscriptable
(`TypeError`). -/
def pyGetItem : J → String → Except PyExc J
  | .obj fs, k =>
      match fs.lookup k with
      | some v => .ok v
      | none => .error .keyError
  | .arr _, _ => .error .typeError
  | _, _ => .error .typeError

/-- Left fold of `operator.getitem` over a key list, with exception
propagation (the behaviour of `reduce` when a step raises). -/
def getitemFold : J → List String → Except PyExc J
  | d, [] => .ok d
  | d, k :: ks =>
      match pyGetItem d k with
      | .ok v => getitemFold v ks
      | .error e => .error e

/-- Body of the `try` block:
`reduce(operator.getitem, key_string.split('.'), data_dict)`. -/
def getNestedValueRaw (data : J) (keyString : String) : Except PyExc J :=
  getitemFold data (pySplit keyString '.')

/-- Does `get_nested_value`'s `except (KeyError, TypeError, IndexError)`
clause catch this exception? -/
def caughtByGetNested : PyExc → Bool
  | .keyError => true
  | .typeError => true
  | .indexError => true
  | .other => false

/-- Model of `get_nested_value(data_dict, key_string)`: empty path returns the whole
structure; a caught exception yields `None`; any uncaught exception would
escape (modelled as `Except.error`). -/
def get_nested_value (data : J) (keyString : String) :
    Except PyExc (Option J) :=
  if keyString == "" then .ok (some data)
  else
    match getNestedValueRaw data keyString with
    | .ok v => .ok (some v)
    | .error e => if caughtByGetNested e then .ok none else .error e

/-- The call pattern `get_nested_value(item, mappings.get(field))`: a missing
mapping passes `None` for the path, which is falsy, so the whole structure
comes back; otherwise the caught-exception result. -/
def getNested (data : J) (keyString : Option String) : Option J :=
  match keyString with
  | none => some data
  | some ks =>
      if ks == "" then some data
      else
        match getNestedValueRaw data ks with
        | .ok v => some v
        | .error _ => none

/-- Python truthiness of an optional lookup result (`None` is falsy). -/
def optTruthy : Option J → Bool
  | none => false
  | some v => !v.isFalsy

/-- Python `s.startswith(p)` (character-list prefix test). -/
def pyStartswith (s p : String) : Bool :=
  List.isPrefixOf p.toList s.toList

/-- Python `str.isdigit` restricted to ASCII digits. -/
def pyIsDigit (str : String) : Bool :=
  !(str.toList).isEmpty && (str.toList).all Char.isDigit

/-- Numeric value of a string of decimal digits (Python `int(s)` on an
`isdigit` string). -/
def digitsToNat (cs : List Char) : Nat :=
  cs.foldl (fun acc c => acc * 10 + (c.toNat - 48)) 0

/-- The three global `threading.Event` flags. -/
structure Flags where
  manuallyPaused : Bool
  rateLimitPaused : Bool
  scanCancelled : Bool
deriving DecidableEq

/-- The `item_data` dict built for a matched item and captured by the
enrichment closure (`processed_at` elided). -/
structure ItemData where
  id : String
  sourceName : String
  byVal : Option J
  time : Int
  title : Option J
  url : Option J
  text : Option J
  matchedLabel : String
  summaryStatus : String

/-- A message placed on `update_queue` (reason strings elided). -/
inductive Event where
  | apiItem (d : ItemData)
  | summaryUpdate (id : String) (aiSummary : String)
  | status (st : String) (nextPage : Option Nat)
  | localAnalytics (eventType : String)

/-- Model of `log_event_and_update_stats`: with MongoDB logging configured the write
goes to the database; otherwise a `local_analytics_update` message is put on
the event queue. Only the queue side is observable here. -/
def log_event_and_update_stats (logAvailable : Bool) (eventType : String) :
    List Event :=
  if logAvailable then [] else [.localAnalytics eventType]

/-- A persisted Content Record in the `feed_items` collection (the fields
written by `generate_summary_and_update`). -/
structure ContentRecord where
  title : Option J
  url : Option J
  byVal : Option J
  text : Option J
  time : Option Int
  ai_summary : Option String
  content_embedding : Option (List Int)

/-- The content store: `available` models `content_collection is not None`,
`find` models `find_one` by `_id`. -/
structure Store where
  available : Bool
  find : String → Option ContentRecord

/-- The cache-hit condition on a found document:
`existing_doc.get('ai_summary') and not ai_summary.startswith(("[Error:", "[Status:"))`. -/
def validCachedSummary : Option String → Bool
  | none => false
  | some a =>
      !(a.toList).isEmpty && !(pyStartswith a "[Error:") &&
        !(pyStartswith a "[Status:")

/-- A source configuration: `name`, `apiUrl`, pagination flag, `dataRoot`,
`fieldsToCheck` and the entries of `fieldMappings` (each `Option` models
`mappings.get(key)` possibly returning `None`). -/
structure SourceConfig where
  name : String
  apiUrl : Option String
  paginationZeroIndexed : Bool
  dataRoot : Option String
  fieldsToCheck : List String
  idPath : Option String
  titlePath : Option String
  urlPath : Option String
  byPath : Option String
  textPath : Option String
  timePath : Option String

/-- Python `ts.replace('Z', '+00:00')` on the character list. -/
def replaceZList : List Char → List Char
  | [] => []
  | x :: t =>
      if x == 'Z' then
        '+' :: '0' :: '0' :: ':' :: '0' :: '0' :: replaceZList t
      else x :: replaceZList t

/-- The `Z`-replacement and sub-microsecond truncation applied to a
non-digit timestamp string before `datetime.fromisoformat`. -/
def cleanTimeString (ts : String) : String :=
  let c := replaceZList ts.toList
  match pySplitChar '.' c with
  | p0 :: p1 :: _ =>
      if p1.length > 6 then ⟨p0 ++ ('.' :: p1.take 6)⟩ else ⟨c⟩
  | _ => ⟨c⟩

/-- The timestamp-parsing block of `process_and_queue_api_item`: empty
string keeps 0; digit strings parse as epoch seconds; anything else goes
through `datetime.fromisoformat` (supplied as the library function
`isoParse`, `none` meaning it raised), defaulting to 0. -/
def parseUnixTimestamp (isoParse : String → Option Int) (timeStr : String) :
    Int :=
  if timeStr == "" then 0
  else if pyIsDigit timeStr then (digitsToNat timeStr.toList : Int)
  else
    match isoParse (cleanTimeString timeStr) with
    | some t => t
    | none => 0

/-- Result of one `process_and_queue_api_item` call: the session dedup set
afterwards, the queue puts made synchronously, and the closures submitted to
the AI pool (each carrying its captured `item_data`). -/
structure ProcResult where
  processedIds : Finset String
  events : List Event
  tasks : List ItemData

/-- The non-cached tail of `process_and_queue_api_item`: the `item_matched`
analytics write, field extraction, the Hacker News URL fallback, timestamp
parsing, the "pending" `api_item` queue put, and the submission of the
enrichment closure (returned as the task's captured `item_data`). -/
def processFreshPath (logAvailable : Bool) (isoParse : String → Option Int)
    (ids : Finset String) (item : J) (matchedLabel : String)
    (cfg : SourceConfig) (uid : String) (idOpt : Option J) : ProcResult :=
  let evLog := log_event_and_update_stats logAvailable "item_matched"
  let titleVal := getNested item cfg.titlePath
  let urlVal0 := getNested item cfg.urlPath
  let byVal := getNested item cfg.byPath
  let textVal := getNested item cfg.textPath
  let timeStr := pyStrOpt (getNested item (some ((cfg.timePath).getD "")))
  let urlVal :=
    if !optTruthy urlVal0 && pyIn "Hacker News" cfg.name then
      if optTruthy idOpt then
        some (J.s ("https://news.ycombinator.com/item?id=" ++ pyStrOpt idOpt))
      else urlVal0
    else urlVal0
  let ts := parseUnixTimestamp isoParse timeStr
  let d : ItemData :=
    { id := uid, sourceName := cfg.name, byVal := byVal, time := ts,
      title := titleVal, url := urlVal, text := textVal,
      matchedLabel := matchedLabel, summaryStatus := "pending" }
  ⟨ids, evLog ++ [.apiItem d], [d]⟩

/-- Model of `process_and_queue_api_item(item, matched_label, source_config)`:
falsy-id drop, session dedup gate, cache replay from the content store, and
otherwise the "pending" card plus submission of the enrichment closure. -/
def process_and_queue_api_item (logAvailable : Bool)
    (isoParse : String → Option Int) (store : Store)
    (processedIds : Finset String) (item : J) (matchedLabel : String)
    (cfg : SourceConfig) : ProcResult :=
  let idOpt := getNested item cfg.idPath
  if !optTruthy idOpt then ⟨processedIds, [], []⟩
  else
    let uid := cfg.name ++ "-" ++ pyStrOpt idOpt
    if uid ∈ processedIds then ⟨processedIds, [], []⟩
    else
      let ids := insert uid processedIds
      let cachedDoc : Option ContentRecord :=
        if store.available then store.find uid else none
      match cachedDoc with
      | some doc =>
        if validCachedSummary doc.ai_summary then
          let ts : Int := (doc.time).getD 0
          let d : ItemData :=
            { id := uid, sourceName := cfg.name, byVal := doc.byVal,
              time := ts, title := doc.title, url := doc.url,
              text := doc.text, matchedLabel := matchedLabel,
              summaryStatus := "complete" }
          ⟨ids, [.apiItem d, .summaryUpdate uid ((doc.ai_summary).getD "")],
           []⟩
        else
          processFreshPath logAvailable isoParse ids item matchedLabel cfg
            uid idOpt
      | none =>
        processFreshPath logAvailable isoParse ids item matchedLabel cfg uid
          idOpt

/-- Outcome of one Azure OpenAI chat call, if it is actually made. -/
inductive LLMOutcome where
  | success (text : String)
  | exn (msg : String)

/-- The AI-provider environment of one enrichment task: whether the Azure
client is configured, what a chat call would return, and what
`get_embedding` would return (`[]` models failure or no client). -/
structure AIEnv where
  clientConfigured : Bool
  outcome : LLMOutcome
  embedResult : List Int

/-- Result of `get_llm_summary`: the returned text, the flag state
afterwards, any status event put on the queue, and whether the provider was
actually called. -/
structure LLMResult where
  text : String
  flags : Flags
  events : List Event
  providerCalled : Bool

/-- Model of `get_llm_summary(prompt_text)`: unconfigured-client guard, manual-pause
guard, rate-limit guard, then the provider call; a throttling exception
(message containing "rate limit") sets the rate-limit flag and emits a
`rate_limit_paused` status event. The prompt does not influence the
environment-supplied outcome. -/
def get_llm_summary (env : AIEnv) (flags : Flags) (_promptText : String) :
    LLMResult :=
  if !env.clientConfigured then
    ⟨"[Error: OpenAI client not configured]", flags, [], false⟩
  else if flags.manuallyPaused then
    ⟨"[Status: Paused. Request cancelled.]", flags, [], false⟩
  else if flags.rateLimitPaused then
    ⟨"[Status: Paused due to rate limit. Request not sent.]", flags, [],
     false⟩
  else
    match env.outcome with
    | .success t => ⟨t.trim, flags, [], true⟩
    | .exn msg =>
      if pyIn "rate limit" msg.toLower then
        ⟨"[Error: Paused due to rate limit: " ++ msg ++ "]",
         { flags with rateLimitPaused := true },
         [.status "rate_limit_paused" none], true⟩
      else ⟨"[Error calling LLM: " ++ msg ++ "]", flags, [], true⟩

/-- Result of running one enrichment closure: dedup set, store and flags
afterwards, the queue puts made, whether the chat and embedding providers
were called, and whether the dedup reservation was released. -/
structure TaskResult where
  processedIds : Finset String
  store : Store
  flags : Flags
  events : List Event
  providerCalled : Bool
  embedCalled : Bool
  released : Bool

/-- The `content_to_summarize` string built inside the enrichment
closure. -/
def content_to_summarize (d : ItemData) : String :=
  "Title: " ++ pyStrOpt d.title ++ "\n\nContent:\n" ++ pyStrOpt d.text

/-- The `prompt_text` string built inside the enrichment closure. -/
def prompt_text (d : ItemData) : String :=
  "## Matched Keyword\n`" ++ d.matchedLabel ++
  "`\n\n## API Content to Analyze (from " ++ d.sourceName ++ ")\n\n" ++
  content_to_summarize d

/-- Model of `generate_summary_and_update()` as submitted to the AI pool:
the pause/cancel re-check releasing the dedup reservation, the
summarization call, the success classification against the two reserved
markers, the best-effort embedding plus `$set` upsert on success, and the
final `summary_update` put. -/
def generate_summary_and_update (logAvailable : Bool) (env : AIEnv)
    (flags : Flags) (store : Store) (processedIds : Finset String)
    (d : ItemData) : TaskResult :=
  if flags.manuallyPaused || flags.scanCancelled then
    ⟨processedIds.erase d.id, store, flags, [], false, false, true⟩
  else
    let r := get_llm_summary env flags (prompt_text d)
    let ok :=
      !(pyStartswith r.text "[Error:") && !(pyStartswith r.text "[Status:")
    let evLog := log_event_and_update_stats logAvailable "summary_generated"
    if ok && store.available then
      let newRec : ContentRecord :=
        { title := d.title, url := d.url, byVal := d.byVal, text := d.text,
          time := some d.time, ai_summary := some r.text,
          content_embedding :=
            if (env.embedResult).isEmpty then
              (store.find d.id).bind (fun rec => rec.content_embedding)
            else some env.embedResult }
      let store2 : Store :=
        { store with
          find := fun k => if k == d.id then some newRec else store.find k }
      ⟨processedIds, store2, r.flags,
       r.events ++ evLog ++ [.summaryUpdate d.id r.text],
       r.providerCalled, true, false⟩
    else
      ⟨processedIds, store, r.flags,
       r.events ++ evLog ++ [.summaryUpdate d.id r.text],
       r.providerCalled, false, false⟩

/-- The externally triggered operations that touch the three flags:
`/pause-scan`, `/resume-scan`, `/cancel-scan`, `/resume-operations`, and
the flag-clearing prologue shared by `/scan-source` and
`/scan-all-sources`. -/
inductive RouteOp where
  | pauseScan
  | resumeScan
  | cancelScan
  | resumeOperations
  | scanSource
  | scanAllSources
deriving DecidableEq

/-- The effect of each route on the flag state. -/
def applyRoute : RouteOp → Flags → Flags
  | .pauseScan, f => { f with manuallyPaused := true }
  | .resumeScan, f => { f with manuallyPaused := false }
  | .cancelScan, f => { f with scanCancelled := true, manuallyPaused := false }
  | .resumeOperations, f => { f with rateLimitPaused := false }
  | .scanSource, f => { f with manuallyPaused := false, scanCancelled := false }
  | .scanAllSources, f =>
      { f with manuallyPaused := false, scanCancelled := false }

/-- State of the whole pipeline as seen through the dedup set, the pending
AI-pool tasks, the content store, the flags, the event queue, and two
histories: ids submitted to the AI pool and dedup reservations released by
aborted tasks. -/
structure SysState where
  processedIds : Finset String
  tasks : List ItemData
  store : Store
  flags : Flags
  events : List Event
  submissions : List String
  releases : List String

/-- One atomic step of the pipeline: a `process_and_queue_api_item` call
(the dedup check-and-add runs under `processed_ids_lock`, so calls serialize
even when scans overlap), the execution of one submitted enrichment task,
or an external flag change. -/
inductive SysStep where
  | callProc (logAvailable : Bool) (isoParse : String → Option Int)
      (item : J) (matchedLabel : String) (cfg : SourceConfig)
  | runTask (i : Nat) (logAvailable : Bool) (env : AIEnv)
  | setFlags (f : Flags)

/-- Transition function of the pipeline. -/
def sysStep (s : SysState) : SysStep → SysState
  | .callProc la ip item ml cfg =>
    let r := process_and_queue_api_item la ip s.store s.processedIds item ml
      cfg
    { s with
      processedIds := r.processedIds,
      tasks := s.tasks ++ r.tasks,
      events := s.events ++ r.events,
      submissions := s.submissions ++ (r.tasks).map (fun d => d.id) }
  | .runTask i la env =>
    match (s.tasks).get? i with
    | none => s
    | some d =>
      let r := generate_summary_and_update la env s.flags s.store
        s.processedIds d
      { s with
        processedIds := r.processedIds, store := r.store, flags := r.flags,
        tasks := (s.tasks).eraseIdx i,
        events := s.events ++ r.events,
        releases := s.releases ++ (if r.released then [d.id] else []) }
  | .setFlags f => { s with flags := f }

/-- Run a sequence of steps. -/
def sysRun (s : SysState) (steps : List SysStep) : SysState :=
  steps.foldl sysStep s

/-- Fresh process state: empty dedup set, no pending tasks, empty queue. -/
def initSys (store : Store) (flags : Flags) : SysState :=
  ⟨∅, [], store, flags, [], [], []⟩

/-- Model of `check_if_item_matches(item, source_config)`: falsy items never match;
otherwise the configured fields are joined with spaces (`x or ''` blanks
falsy values) and the first pattern, in registry order, whose `search`
succeeds gives the label. Compiled regexes are modelled as boolean
matchers on the joined text. -/
def check_if_item_matches (patterns : List (String × (String → Bool)))
    (item : J) (cfg : SourceConfig) : Option String :=
  if item.isFalsy then none
  else
    let content := String.intercalate " "
      ((cfg.fieldsToCheck).map (fun f =>
        match getNested item (some f) with
        | some v => if v.isFalsy then "" else v.pyStr
        | none => ""))
    ((patterns.find? (fun lp => lp.2 content)).map (fun lp => lp.1))

/-- Result of one page fetch: a `requests.RequestException` (connection
failure, timeout or `raise_for_status`), a body that fails JSON decoding,
or a parsed body. -/
inductive FetchResult where
  | httpError
  | notJson
  | ok (body : J)

/-- The environment of one scan session. `flags i` is the flag snapshot the
scanner observes during loop iteration `i` (reads inside one iteration see
the same snapshot; index `PAGES_PER_SCAN` is the fresh read of the cancel
flag after the loop). `fetch p` is the response for API page `p`. -/
structure ScanEnv where
  flags : Nat → Flags
  fetch : Int → FetchResult
  logAvailable : Bool
  patterns : List (String × (String → Bool))

/-- The fixed per-invocation page budget. -/
def PAGES_PER_SCAN : Nat := 10

/-- Observable output of a scan session: queue puts, API page numbers
requested in order, `current_page` values at fetch time, and the matched
items handed to the fast pool for processing. -/
structure ScanAcc where
  events : List Event
  fetched : List Int
  logicalPages : List Nat
  submitted : List (J × String)

/-- How control left the `for i in range(PAGES_PER_SCAN)` loop. -/
inductive LoopExit where
  | fellThrough
  | returned
  | raisedRequest
deriving DecidableEq

/-- A finished scan session: accumulated output, the final `current_page`,
and the way the loop ended. -/
structure ScanResult where
  acc : ScanAcc
  currentPage : Nat
  exitKind : LoopExit

/-- The body of `perform_api_scan`'s page loop, run with `fuel` budget
iterations left, at for-range index `i` and `current_page = cur`. In the
manual-pause branch the code calls `is_manually_paused.wait()`, which
returns immediately because the event waited on is the pause flag itself,
already set; the `continue` then advances the for-range index, so the
branch recurses consuming one unit of budget without touching `cur`. -/
def scanLoop (env : ScanEnv) (cfg : SourceConfig) :
    Nat → Nat → Nat → ScanAcc → ScanResult
  | 0, _, cur, acc => ⟨acc, cur, .fellThrough⟩
  | fuel + 1, i, cur, acc =>
    let f := env.flags i
    if f.scanCancelled then ⟨acc, cur, .fellThrough⟩
    else if f.manuallyPaused then
      scanLoop env cfg fuel (i + 1) cur
        { acc with events := acc.events ++ [.status "manually_paused" none] }
    else if f.rateLimitPaused then ⟨acc, cur, .returned⟩
    else
      let pageToRequest : Int :=
        if cfg.paginationZeroIndexed then (cur : Int) - 1 else (cur : Int)
      let acc1 : ScanAcc :=
        { acc with
          events := acc.events ++ [.status "scanning" none],
          fetched := acc.fetched ++ [pageToRequest],
          logicalPages := acc.logicalPages ++ [cur] }
      match env.fetch pageToRequest with
      | .httpError => ⟨acc1, cur, .raisedRequest⟩
      | .notJson =>
        ⟨{ acc1 with events := acc1.events ++ [.status "error" none] }, cur,
         .returned⟩
      | .ok body =>
        let items? : Option (List J) :=
          match getNested body cfg.dataRoot with
          | some (J.arr xs) => if xs.isEmpty then none else some xs
          | _ => none
        match items? with
        | none =>
          ⟨{ acc1 with
             events := acc1.events ++ [.status "idle" none] ++
               log_event_and_update_stats env.logAvailable "scan_completed" },
           cur, .returned⟩
        | some items =>
          let subs := items.filterMap (fun it =>
            (check_if_item_matches env.patterns it cfg).map (fun l =>
              (it, l)))
          scanLoop env cfg fuel (i + 1) (cur + 1)
            { acc1 with submitted := acc1.submitted ++ subs }

/-- Model of `perform_api_scan(source_config, start_page)`: the opening `scanning`
status and `scan_started` analytics write, the missing-`apiUrl`
configuration check, the page loop, and the after-loop epilogue (cancel
re-check emitting `idle`, else `scan_paused` carrying
`next_page = current_page`); a `requests` exception lands in the `except`
block emitting `error`. -/
def perform_api_scan (env : ScanEnv) (cfg : SourceConfig) (startPage : Nat) :
    ScanResult :=
  let acc0 : ScanAcc :=
    ⟨[.status "scanning" none] ++
       log_event_and_update_stats env.logAvailable "scan_started",
     [], [], []⟩
  if !((cfg.apiUrl).getD "").isEmpty then
    let r := scanLoop env cfg PAGES_PER_SCAN 0 startPage acc0
    match r.exitKind with
    | .fellThrough =>
      if (env.flags PAGES_PER_SCAN).scanCancelled then
        ⟨{ r.acc with
           events := r.acc.events ++ [.status "idle" none] ++
             log_event_and_update_stats env.logAvailable "scan_cancelled" },
         r.currentPage, .fellThrough⟩
      else
        ⟨{ r.acc with
           events := r.acc.events ++
             [.status "scan_paused" (some r.currentPage)] ++
             log_event_and_update_stats env.logAvailable
               "scan_paused_limit" },
         r.currentPage, .fellThrough⟩
    | .returned => r
    | .raisedRequest =>
      ⟨{ r.acc with
         events := r.acc.events ++ [.status "error" none] ++
           log_event_and_update_stats env.logAvailable "scan_error" },
       r.currentPage, .raisedRequest⟩
  else
    ⟨{ acc0 with events := acc0.events ++ [.status "error" none] },
     startPage, .returned⟩

/-! ## Concrete fixtures used for witnesses and counterexamples -/

/-- A feed item whose id field is `7`. -/
def itemFix : J := .obj [("id", .i 7), ("title", .s "MongoDB rocks")]

/-- A feed item whose id field is the number `0` (falsy in Python). -/
def itemZeroId : J := .obj [("id", .i 0), ("title", .s "MongoDB rocks")]

/-- A small source configuration named `S` with id path `id`. -/
def cfgFix : SourceConfig :=
  ⟨"S", some "http://example.test/feed", false, some "hits", ["title"],
   some "id", some "title", none, none, none, none⟩

/-- A pipeline with the content collection unavailable. -/
def noStoreFix : Store := ⟨false, fun _ => none⟩

/-- A stored Content Record with a valid (non-marker) summary. -/
def cachedRecFix : ContentRecord :=
  ⟨some (.s "T"), some (.s "u"), some (.s "bee"), some (.s "x"), some 99,
   some "A cached summary", none⟩

/-- A content store holding `cachedRecFix` under the composite id `S-7`. -/
def cachedStoreFix : Store :=
  ⟨true, fun k => if k == "S-7" then some cachedRecFix else none⟩

/-- An AI environment whose chat call would succeed. -/
def aiEnvFix : AIEnv := ⟨true, .success "nice", [3]⟩

/-- All three flags clear. -/
def clearFlags : Flags := ⟨false, false, false⟩

/-- A response body whose `hits` field holds one item. -/
def goodBodyFix : J := .obj [("hits", .arr [itemFix])]

/-- A scan environment with all flags clear and every page non-empty. -/
def scanEnvClear : ScanEnv :=
  ⟨fun _ => clearFlags, fun _ => .ok goodBodyFix, true, []⟩

/-- A scan environment in which the manual-pause flag is set at every
observation and never cleared. -/
def scanEnvPaused : ScanEnv :=
  ⟨fun _ => ⟨true, false, false⟩, fun _ => .ok goodBodyFix, true, []⟩

/-- A scan environment in which the cancel flag is set at every
observation. -/
def scanEnvCancelled : ScanEnv :=
  ⟨fun _ => ⟨false, false, true⟩, fun _ => .ok goodBodyFix, true, []⟩

/-- A concrete `item_data` record as captured by an enrichment closure. -/
def taskFix : ItemData :=
  ⟨"S-7", "S", none, 0, some (.s "T"), none, some (.s "x"), "MongoDB",
   "pending"⟩

/-- Does an event carry a resumption cursor (a `next_page` value)? -/
def Event.carriesCursor : Event → Bool
  | .status _ (some _) => true
  | _ => false

/-- A trace in which the same composite id is submitted to the AI pool
twice within one process lifetime: the item is matched and submitted, the
enrichment task runs while manually paused and releases the dedup
reservation, the pause is lifted, and a rescan matches the item again. -/
def c1Steps : List SysStep :=
  [.callProc true (fun _ => none) itemFix "MongoDB" cfgFix,
   .setFlags ⟨true, false, false⟩,
   .runTask 0 true aiEnvFix,
   .setFlags clearFlags,
   .callProc true (fun _ => none) itemFix "MongoDB" cfgFix]

/-! ## Theorems -/

theorem pyGetItem_error_caught (d : J) (k : String) (e : PyExc)
    (h : pyGetItem d k = .error e) : caughtByGetNested e = true := by
  cases d with
  | obj fs =>
    cases hl : fs.lookup k with
    | some v => simp [pyGetItem, hl] at h
    | none => simp [pyGetItem, hl] at h; subst h; rfl
  | null => simp [pyGetItem] at h; subst h; rfl
  | b x => simp [pyGetItem] at h; subst h; rfl
  | i n => simp [pyGetItem] at h; subst h; rfl
  | s str => simp [pyGetItem] at h; subst h; rfl
  | arr xs => simp [pyGetItem] at h; subst h; rfl

theorem getitemFold_error_caught (keys : List String) (d : J) (e : PyExc)
    (h : getitemFold d keys = .error e) : caughtByGetNested e = true := by
  induction keys generalizing d with
  | nil => exact Except.noConfusion h
  | cons k ks ih =>
    unfold getitemFold at h
    cases hg : pyGetItem d k with
    | ok v =>
      rw [hg] at h
      exact ih v h
    | error e2 =>
      rw [hg] at h
      injection h with he
      subst he
      exact pyGetItem_error_caught d k e2 hg

/-- C9: the dotted-path lookup `get_nested_value` is total: for every input
structure and path string it returns a value or `None` and never lets an
exception escape (every exception raised by the `reduce` of `getitem` over
JSON data lies in the caught `(KeyError, TypeError, IndexError)` set), and
for the empty path string it returns the whole input structure unchanged. -/
theorem C9_get_nested_value_total :
    (∀ (data : J) (keyString : String),
        ∃ r : Option J, get_nested_value data keyString = .ok r) ∧
    (∀ data : J, get_nested_value data "" = .ok (some data)) := by
  constructor
  · intro data ks
    unfold get_nested_value
    split
    · exact ⟨some data, rfl⟩
    · cases hr : getNestedValueRaw data ks with
      | ok v => exact ⟨some v, rfl⟩
      | error e =>
        have hc : caughtByGetNested e = true := by
          unfold getNestedValueRaw at hr
          exact getitemFold_error_caught _ _ _ hr
        exact ⟨none, by simp [hc]⟩
  · intro data
    unfold get_nested_value
    rfl

/-- C10: an item whose configured id field resolves to a falsy value
(absent field, `None`, empty string, `0`, `False`, empty container) is
dropped by `process_and_queue_api_item` with only a logged warning: no
event is emitted, the dedup set is unchanged, and no enrichment task is
submitted. -/
theorem C10_falsy_id_dropped (logAvailable : Bool)
    (isoParse : String → Option Int) (store : Store) (ids : Finset String)
    (item : J) (label : String) (cfg : SourceConfig)
    (h : optTruthy (getNested item cfg.idPath) = false) :
    process_and_queue_api_item logAvailable isoParse store ids item label cfg
      = ⟨ids, [], []⟩ := by
  unfold process_and_queue_api_item
  simp [h]

/-- C7: an enrichment task that begins executing while the manual-pause
flag or the cancel flag is set removes its composite id from the session
dedup set, emits no event (in particular no `summary_update`), calls
neither the AI provider nor the embedding service, and leaves store and
flags untouched. -/
theorem C7_abort_releases_reservation (la : Bool) (env : AIEnv)
    (flags : Flags) (store : Store) (ids : Finset String) (d : ItemData)
    (h : flags.manuallyPaused = true ∨ flags.scanCancelled = true) :
    generate_summary_and_update la env flags store ids d =
      ⟨ids.erase d.id, store, flags, [], false, false, true⟩ := by
  unfold generate_summary_and_update
  rcases h with h | h <;> simp [h]

/-- C2: when the composite id of a matched item has a stored Content
Record whose summary does not start with an error/status marker, and the
id is not yet in the session dedup set, processing the item emits exactly
one `api_item` event rebuilt from the stored record fields (status
`complete`) followed by exactly one `summary_update` event carrying the
stored summary, adds the id to the dedup set, and submits no enrichment
task — hence no AI summarization or embedding call is made. -/
theorem C2_cached_replay (la : Bool) (ip : String → Option Int)
    (store : Store) (ids : Finset String) (item : J) (label : String)
    (cfg : SourceConfig) (doc : ContentRecord) (a : String)
    (hid : optTruthy (getNested item cfg.idPath) = true)
    (hmem : cfg.name ++ "-" ++ pyStrOpt (getNested item cfg.idPath) ∉ ids)
    (hav : store.available = true)
    (hfind :
      store.find (cfg.name ++ "-" ++ pyStrOpt (getNested item cfg.idPath)) =
        some doc)
    (hsum : doc.ai_summary = some a)
    (hvalid : validCachedSummary (some a) = true) :
    process_and_queue_api_item la ip store ids item label cfg =
      ⟨insert (cfg.name ++ "-" ++ pyStrOpt (getNested item cfg.idPath)) ids,
       [.apiItem
          ⟨cfg.name ++ "-" ++ pyStrOpt (getNested item cfg.idPath), cfg.name,
           doc.byVal, (doc.time).getD 0, doc.title, doc.url, doc.text, label,
           "complete"⟩,
        .summaryUpdate
          (cfg.name ++ "-" ++ pyStrOpt (getNested item cfg.idPath)) a],
       []⟩ := by
  unfold process_and_queue_api_item
  simp [hid, hmem, hav, hfind, hsum, hvalid]

/-- C5: while the rate-limit flag is set (with the AI client configured,
which holds in every state where the flag can have been set, since only a
real provider call sets it), every summarization call returns a
paused-result status text without invoking the provider; `get_llm_summary`
itself never clears a set flag; and among the externally triggered
operations only `/resume-operations` clears it. -/
theorem C5_rate_limit_freeze :
    (∀ (env : AIEnv) (flags : Flags) (prompt : String),
        env.clientConfigured = true → flags.rateLimitPaused = true →
        (get_llm_summary env flags prompt).providerCalled = false ∧
        pyStartswith (get_llm_summary env flags prompt).text
          "[Status: Paused" = true) ∧
    (∀ (env : AIEnv) (flags : Flags) (prompt : String),
        flags.rateLimitPaused = true →
        ((get_llm_summary env flags prompt).flags).rateLimitPaused = true) ∧
    (∀ (op : RouteOp) (flags : Flags), op ≠ RouteOp.resumeOperations →
        flags.rateLimitPaused = true →
        (applyRoute op flags).rateLimitPaused = true) := by
  refine ⟨?_, ?_, ?_⟩
  · intro env flags prompt hc hr
    unfold get_llm_summary
    cases hm : flags.manuallyPaused <;> simp [hc, hm, hr] <;> decide
  · intro env flags prompt hr
    unfold get_llm_summary
    cases hcc : env.clientConfigured <;> cases hm : flags.manuallyPaused <;>
      simp [hcc, hm, hr]
  · intro op flags hne hr
    cases op <;> first
      | exact absurd rfl hne
      | simpa [applyRoute] using hr

theorem processFreshPath_shape (la : Bool) (ip : String → Option Int)
    (ids : Finset String) (item : J) (label : String) (cfg : SourceConfig)
    (uid : String) (idOpt : Option J) :
    ∃ d : ItemData,
      processFreshPath la ip ids item label cfg uid idOpt =
        ⟨ids, log_event_and_update_stats la "item_matched" ++ [.apiItem d],
         [d]⟩ ∧
      d.id = uid ∧ d.summaryStatus = "pending" := by
  unfold processFreshPath
  exact ⟨_, rfl, rfl, rfl⟩

theorem process_cache_miss (la : Bool) (ip : String → Option Int)
    (store : Store) (ids : Finset String) (item : J) (label : String)
    (cfg : SourceConfig)
    (hid : optTruthy (getNested item cfg.idPath) = true)
    (hmem : cfg.name ++ "-" ++ pyStrOpt (getNested item cfg.idPath) ∉ ids)
    (hmiss : ∀ doc : ContentRecord,
      (if store.available = true
       then store.find
         (cfg.name ++ "-" ++ pyStrOpt (getNested item cfg.idPath))
       else none) = some doc → validCachedSummary doc.ai_summary = false) :
    process_and_queue_api_item la ip store ids item label cfg =
      processFreshPath la ip
        (insert (cfg.name ++ "-" ++ pyStrOpt (getNested item cfg.idPath))
          ids)
        item label cfg
        (cfg.name ++ "-" ++ pyStrOpt (getNested item cfg.idPath))
        (getNested item cfg.idPath) := by
  unfold process_and_queue_api_item
  cases hcd : (if store.available = true
      then store.find
        (cfg.name ++ "-" ++ pyStrOpt (getNested item cfg.idPath))
      else none) with
  | none => simp [hid, hmem, hcd]
  | some doc => simp [hid, hmem, hcd, hmiss doc hcd]

theorem generate_emits_summary (la : Bool) (env : AIEnv) (flags : Flags)
    (store : Store) (ids : Finset String) (d : ItemData)
    (hp : flags.manuallyPaused = false) (hc : flags.scanCancelled = false) :
    ∃ txt, Event.summaryUpdate d.id txt ∈
      (generate_summary_and_update la env flags store ids d).events := by
  unfold generate_summary_and_update
  simp only [hp, hc, Bool.or_self, Bool.false_eq_true, if_false]
  split <;>
    exact ⟨(get_llm_summary env flags (prompt_text d)).text, by simp⟩

/-- C8: for a matched item taking the fresh (non-cached) path, the
`api_item` event with `summary_status = "pending"` is placed on the event
channel by `process_and_queue_api_item` itself, while the `summary_update`
for the same composite id is only placed by the later execution of the
submitted enrichment task: every channel trace of the form
"synchronous events, then any interleaved events, then the task's events"
splits so that the pending card lies strictly before the terminal
summary. -/
theorem C8_pending_before_summary (la la2 : Bool) (ip : String → Option Int)
    (store store2 : Store) (ids ids2 : Finset String) (item : J)
    (label : String) (cfg : SourceConfig) (env : AIEnv) (flags : Flags)
    (mid : List Event)
    (hid : optTruthy (getNested item cfg.idPath) = true)
    (hmem : cfg.name ++ "-" ++ pyStrOpt (getNested item cfg.idPath) ∉ ids)
    (hmiss : ∀ doc : ContentRecord,
      (if store.available = true
       then store.find
         (cfg.name ++ "-" ++ pyStrOpt (getNested item cfg.idPath))
       else none) = some doc → validCachedSummary doc.ai_summary = false)
    (hp : flags.manuallyPaused = false) (hc : flags.scanCancelled = false) :
    ∃ d : ItemData,
      (process_and_queue_api_item la ip store ids item label cfg).tasks = [d]
      ∧ d.id = cfg.name ++ "-" ++ pyStrOpt (getNested item cfg.idPath)
      ∧ d.summaryStatus = "pending"
      ∧ ∃ A B,
          (process_and_queue_api_item la ip store ids item label cfg).events
              ++ (mid ++
                (generate_summary_and_update la2 env flags store2 ids2
                  d).events)
            = A ++ B
          ∧ Event.apiItem d ∈ A
          ∧ ∃ txt, Event.summaryUpdate d.id txt ∈ B := by
  obtain ⟨d, hshape, hdid, hds⟩ :=
    processFreshPath_shape la ip
      (insert (cfg.name ++ "-" ++ pyStrOpt (getNested item cfg.idPath)) ids)
      item label cfg
      (cfg.name ++ "-" ++ pyStrOpt (getNested item cfg.idPath))
      (getNested item cfg.idPath)
  have hproc := process_cache_miss la ip store ids item label cfg hid hmem
    hmiss
  rw [hshape] at hproc
  obtain ⟨txt, htxt⟩ :=
    generate_emits_summary la2 env flags store2 ids2 d hp hc
  refine ⟨d, by rw [hproc], hdid, hds,
    (process_and_queue_api_item la ip store ids item label cfg).events,
    mid ++
      (generate_summary_and_update la2 env flags store2 ids2 d).events,
    rfl, ?_, txt, ?_⟩
  · rw [hproc]
    simp
  · exact List.mem_append_right mid htxt

theorem scanLoop_all_clear (env : ScanEnv) (cfg : SourceConfig)
    (hflags : ∀ i, env.flags i = ⟨false, false, false⟩)
    (hfetch : ∀ p : Int, ∃ (body : J) (items : List J),
        env.fetch p = .ok body ∧
        getNested body cfg.dataRoot = some (.arr items) ∧ items ≠ []) :
    ∀ (fuel i cur : Nat) (acc : ScanAcc), ∃ acc2 : ScanAcc,
      scanLoop env cfg fuel i cur acc = ⟨acc2, cur + fuel, .fellThrough⟩ := by
  intro fuel
  induction fuel with
  | zero =>
    intro i cur acc
    exact ⟨acc, by simp [scanLoop]⟩
  | succ n ih =>
    intro i cur acc
    obtain ⟨body, items, hf, hroot, hne⟩ :=
      hfetch (if cfg.paginationZeroIndexed then (cur : Int) - 1
        else (cur : Int))
    have hie : items.isEmpty = false := by
      simpa using hne
    unfold scanLoop
    rw [hflags i]
    simp only [Bool.false_eq_true, if_false, hf, hroot, hie]
    obtain ⟨acc2, h2⟩ := ih (i + 1) (cur + 1) _
    rw [show cur + 1 + n = cur + (n + 1) from by omega] at h2
    exact ⟨acc2, h2⟩

/-- C4: a scan session that starts at `start_page` and exhausts its whole
page budget without cancellation, pause, rate-limit, fetch error, or an
empty/non-list item result ends by emitting a `scan_paused` status event
whose `next_page` equals `start_page + PAGES_PER_SCAN`
(the fixed budget, 10). -/
theorem C4_budget_exhaustion_cursor (env : ScanEnv) (cfg : SourceConfig)
    (sp : Nat)
    (hurl : ((cfg.apiUrl).getD "").isEmpty = false)
    (hflags : ∀ i, env.flags i = ⟨false, false, false⟩)
    (hlog : env.logAvailable = true)
    (hfetch : ∀ p : Int, ∃ (body : J) (items : List J),
        env.fetch p = .ok body ∧
        getNested body cfg.dataRoot = some (.arr items) ∧ items ≠ []) :
    ((perform_api_scan env cfg sp).acc.events).getLast? =
        some (.status "scan_paused" (some (sp + PAGES_PER_SCAN))) ∧
    (perform_api_scan env cfg sp).currentPage = sp + PAGES_PER_SCAN := by
  obtain ⟨acc2, hloop⟩ :=
    scanLoop_all_clear env cfg hflags hfetch PAGES_PER_SCAN 0 sp
      ⟨[.status "scanning" none] ++
         log_event_and_update_stats env.logAvailable "scan_started",
       [], [], []⟩
  unfold perform_api_scan
  rw [hurl]
  simp only [Bool.not_false, if_true]
  rw [hloop]
  rw [hflags PAGES_PER_SCAN]
  simp [hlog, log_event_and_update_stats, List.getLast?_concat]

theorem scanLoop_pages (env : ScanEnv) (cfg : SourceConfig) :
    ∀ (fuel i cur : Nat) (acc acc2 : ScanAcc) (cp : Nat),
      scanLoop env cfg fuel i cur acc = ⟨acc2, cp, .fellThrough⟩ →
      acc2.logicalPages = acc.logicalPages ++ List.range' cur (cp - cur) ∧
        cur ≤ cp := by
  intro fuel
  induction fuel with
  | zero =>
    intro i cur acc acc2 cp h
    unfold scanLoop at h
    simp only [ScanResult.mk.injEq] at h
    obtain ⟨h1, h2, -⟩ := h
    subst h1
    subst h2
    simp
  | succ n ih =>
    intro i cur acc acc2 cp h
    unfold scanLoop at h
    by_cases hc : (env.flags i).scanCancelled = true
    · simp only [hc, if_true, ScanResult.mk.injEq] at h
      obtain ⟨h1, h2, -⟩ := h
      subst h1
      subst h2
      simp
    · simp only [hc, Bool.false_eq_true, if_false] at h
      by_cases hm : (env.flags i).manuallyPaused = true
      · simp only [hm, if_true] at h
        obtain ⟨hpages, hle⟩ := ih (i + 1) cur _ acc2 cp h
        exact ⟨hpages, hle⟩
      · simp only [hm, Bool.false_eq_true, if_false] at h
        by_cases hr : (env.flags i).rateLimitPaused = true
        · simp [hr] at h
        · simp only [hr, Bool.false_eq_true, if_false] at h
          cases hf : env.fetch (if cfg.paginationZeroIndexed
              then (cur : Int) - 1 else (cur : Int)) with
          | httpError => rw [hf] at h; simp at h
          | notJson => rw [hf] at h; simp at h
          | ok body =>
            rw [hf] at h
            simp only at h
            cases hroot : getNested body cfg.dataRoot with
            | none => rw [hroot] at h; simp at h
            | some v =>
              rw [hroot] at h
              cases v with
              | arr xs =>
                by_cases hie : xs.isEmpty = true
                · simp [hie] at h
                · simp only [hie, Bool.false_eq_true, if_false] at h
                  obtain ⟨hpages, hle⟩ := ih (i + 1) (cur + 1) _ acc2 cp h
                  constructor
                  · rw [hpages]
                    rw [show cp - cur = (cp - (cur + 1)) + 1 from by omega,
                      List.range'_succ]
                    simp [List.append_assoc]
                  · omega
              | null => simp at h
              | b x => simp at h
              | i m => simp at h
              | s str => simp at h
              | obj fs => simp at h

/-- C6 counterexample: a session cancelled at the first checkpoint ends
with a `scanning` and an `idle` status event only — no event of the
session carries a `next_page` resumption cursor, so a cancelled session
does not return the Scan Cursor to the caller. -/
theorem C6_counterexample_cancel_no_cursor :
    (perform_api_scan scanEnvCancelled cfgFix 5).acc.events =
        [.status "scanning" none, .status "idle" none] ∧
    ((perform_api_scan scanEnvCancelled cfgFix 5).acc.events).all
        (fun e => !e.carriesCursor) = true := by
  constructor
  · rfl
  · rfl

theorem perform_exitKind (env : ScanEnv) (cfg : SourceConfig) (sp : Nat)
    (hurl : ((cfg.apiUrl).getD "").isEmpty = false) :
    (perform_api_scan env cfg sp).exitKind =
      (scanLoop env cfg PAGES_PER_SCAN 0 sp
        ⟨[.status "scanning" none] ++
           log_event_and_update_stats env.logAvailable "scan_started",
         [], [], []⟩).exitKind := by
  unfold perform_api_scan
  rw [hurl]
  simp only [Bool.not_false, if_true]
  cases hek : (scanLoop env cfg PAGES_PER_SCAN 0 sp
      ⟨[.status "scanning" none] ++
         log_event_and_update_stats env.logAvailable "scan_started",
       [], [], []⟩).exitKind with
  | fellThrough => simp; split <;> rfl
  | returned => simp; exact hek
  | raisedRequest => simp

theorem no_cursor_singleton (x : Event) (hx : x.carriesCursor = false) :
    ∀ e ∈ [x], e.carriesCursor = false := by
  intro e he
  simp only [List.mem_singleton] at he
  subst he
  exact hx

theorem no_cursor_append (l1 l2 : List Event)
    (h1 : ∀ e ∈ l1, e.carriesCursor = false)
    (h2 : ∀ e ∈ l2, e.carriesCursor = false) :
    ∀ e ∈ l1 ++ l2, e.carriesCursor = false := by
  intro e he
  rcases List.mem_append.mp he with h | h
  · exact h1 e h
  · exact h2 e h

theorem log_no_cursor (la : Bool) (t : String) :
    ∀ e ∈ log_event_and_update_stats la t, e.carriesCursor = false := by
  intro e he
  unfold log_event_and_update_stats at he
  by_cases hla : la = true
  · simp [hla] at he
  · simp only [hla, Bool.false_eq_true, if_false, List.mem_singleton] at he
    subst he
    rfl

theorem scanLoop_no_cursor (env : ScanEnv) (cfg : SourceConfig) :
    ∀ (fuel i cur : Nat) (acc acc2 : ScanAcc) (cp : Nat) (ek : LoopExit),
      scanLoop env cfg fuel i cur acc = ⟨acc2, cp, ek⟩ →
      (∀ e ∈ acc.events, e.carriesCursor = false) →
      ∀ e ∈ acc2.events, e.carriesCursor = false := by
  intro fuel
  induction fuel with
  | zero =>
    intro i cur acc acc2 cp ek h hacc
    unfold scanLoop at h
    simp only [ScanResult.mk.injEq] at h
    obtain ⟨h1, -, -⟩ := h
    subst h1
    exact hacc
  | succ n ih =>
    intro i cur acc acc2 cp ek h hacc
    unfold scanLoop at h
    by_cases hc : (env.flags i).scanCancelled = true
    · simp only [hc, if_true, ScanResult.mk.injEq] at h
      obtain ⟨h1, -, -⟩ := h
      subst h1
      exact hacc
    · simp only [hc, Bool.false_eq_true, if_false] at h
      by_cases hm : (env.flags i).manuallyPaused = true
      · simp only [hm, if_true] at h
        exact ih (i + 1) cur _ acc2 cp ek h
          (no_cursor_append _ _ hacc
            (no_cursor_singleton (Event.status "manually_paused" none) rfl))
      · simp only [hm, Bool.false_eq_true, if_false] at h
        by_cases hr : (env.flags i).rateLimitPaused = true
        · simp only [hr, if_true, ScanResult.mk.injEq] at h
          obtain ⟨h1, -, -⟩ := h
          subst h1
          exact hacc
        · simp only [hr, Bool.false_eq_true, if_false] at h
          have hacc1 : ∀ e ∈ acc.events ++ [Event.status "scanning" none],
              e.carriesCursor = false :=
            no_cursor_append _ _ hacc
              (no_cursor_singleton (Event.status "scanning" none) rfl)
          cases hf : env.fetch (if cfg.paginationZeroIndexed
              then (cur : Int) - 1 else (cur : Int)) with
          | httpError =>
            rw [hf] at h
            simp only [ScanResult.mk.injEq] at h
            obtain ⟨h1, -, -⟩ := h
            subst h1
            exact hacc1
          | notJson =>
            rw [hf] at h
            simp only [ScanResult.mk.injEq] at h
            obtain ⟨h1, -, -⟩ := h
            subst h1
            exact no_cursor_append _ _ hacc1
              (no_cursor_singleton (Event.status "error" none) rfl)
          | ok body =>
            rw [hf] at h
            simp only at h
            cases hroot : getNested body cfg.dataRoot with
            | none =>
              rw [hroot] at h
              simp only [ScanResult.mk.injEq] at h
              obtain ⟨h1, -, -⟩ := h
              subst h1
              exact no_cursor_append _ _
                (no_cursor_append _ _ hacc1
                  (no_cursor_singleton (Event.status "idle" none) rfl))
                (log_no_cursor _ _)
            | some v =>
              rw [hroot] at h
              cases v with
              | arr xs =>
                by_cases hie : xs.isEmpty = true
                · simp only [hie, if_true, ScanResult.mk.injEq] at h
                  obtain ⟨h1, -, -⟩ := h
                  subst h1
                  exact no_cursor_append _ _
                    (no_cursor_append _ _ hacc1
                      (no_cursor_singleton (Event.status "idle" none) rfl))
                    (log_no_cursor _ _)
                · simp only [hie, Bool.false_eq_true, if_false] at h
                  exact ih (i + 1) (cur + 1) _ acc2 cp ek h hacc1
              | null =>
                simp only [ScanResult.mk.injEq] at h
                obtain ⟨h1, -, -⟩ := h
                subst h1
                exact no_cursor_append _ _
                  (no_cursor_append _ _ hacc1
                    (no_cursor_singleton (Event.status "idle" none) rfl))
                  (log_no_cursor _ _)
              | b x =>
                simp only [ScanResult.mk.injEq] at h
                obtain ⟨h1, -, -⟩ := h
                subst h1
                exact no_cursor_append _ _
                  (no_cursor_append _ _ hacc1
                    (no_cursor_singleton (Event.status "idle" none) rfl))
                  (log_no_cursor _ _)
              | i m =>
                simp only [ScanResult.mk.injEq] at h
                obtain ⟨h1, -, -⟩ := h
                subst h1
                exact no_cursor_append _ _
                  (no_cursor_append _ _ hacc1
                    (no_cursor_singleton (Event.status "idle" none) rfl))
                  (log_no_cursor _ _)
              | s str =>
                simp only [ScanResult.mk.injEq] at h
                obtain ⟨h1, -, -⟩ := h
                subst h1
                exact no_cursor_append _ _
                  (no_cursor_append _ _ hacc1
                    (no_cursor_singleton (Event.status "idle" none) rfl))
                  (log_no_cursor _ _)
              | obj fs =>
                simp only [ScanResult.mk.injEq] at h
                obtain ⟨h1, -, -⟩ := h
                subst h1
                exact no_cursor_append _ _
                  (no_cursor_append _ _ hacc1
                    (no_cursor_singleton (Event.status "idle" none) rfl))
                  (log_no_cursor _ _)

theorem perform_cursor_dichotomy (env : ScanEnv) (cfg : SourceConfig)
    (sp : Nat) :
    (∀ e ∈ (perform_api_scan env cfg sp).acc.events,
        e.carriesCursor = false)
    ∨ ((perform_api_scan env cfg sp).exitKind = .fellThrough ∧
       (env.flags PAGES_PER_SCAN).scanCancelled = false ∧
       ∃ pre post, (perform_api_scan env cfg sp).acc.events =
           pre ++ [.status "scan_paused"
             (some (perform_api_scan env cfg sp).currentPage)] ++ post ∧
         (∀ e ∈ pre, e.carriesCursor = false) ∧
         (∀ e ∈ post, e.carriesCursor = false)) := by
  have hacc0 : ∀ e ∈ ([Event.status "scanning" none] ++
      log_event_and_update_stats env.logAvailable "scan_started"),
      e.carriesCursor = false :=
    no_cursor_append _ _ (no_cursor_singleton _ rfl) (log_no_cursor _ _)
  unfold perform_api_scan
  cases hie : ((cfg.apiUrl).getD "").isEmpty with
  | true =>
    left
    simp only [hie, Bool.not_true, Bool.false_eq_true, if_false]
    exact no_cursor_append _ _ hacc0
      (no_cursor_singleton (Event.status "error" none) rfl)
  | false =>
    simp only [hie, Bool.not_false, if_true]
    rcases hloop : scanLoop env cfg PAGES_PER_SCAN 0 sp
        ⟨[.status "scanning" none] ++
           log_event_and_update_stats env.logAvailable "scan_started",
         [], [], []⟩ with ⟨acc2, cp, ek⟩
    rw [hloop]
    have hno2 : ∀ e ∈ acc2.events, e.carriesCursor = false :=
      scanLoop_no_cursor env cfg PAGES_PER_SCAN 0 sp _ acc2 cp ek hloop
        hacc0
    cases ek with
    | returned =>
      left
      exact hno2
    | raisedRequest =>
      left
      exact no_cursor_append _ _
        (no_cursor_append _ _ hno2
          (no_cursor_singleton (Event.status "error" none) rfl))
        (log_no_cursor _ _)
    | fellThrough =>
      by_cases hnc : (env.flags PAGES_PER_SCAN).scanCancelled = true
      · left
        simp only [hnc, if_true]
        exact no_cursor_append _ _
          (no_cursor_append _ _ hno2
            (no_cursor_singleton (Event.status "idle" none) rfl))
          (log_no_cursor _ _)
      · right
        have hnc2 : (env.flags PAGES_PER_SCAN).scanCancelled = false := by
          simpa using hnc
        simp only [hnc, Bool.false_eq_true, if_false]
        exact ⟨True.intro, True.intro, acc2.events,
          log_event_and_update_stats env.logAvailable "scan_paused_limit",
          rfl, hno2, log_no_cursor _ _⟩

/-- C6 amended: the scanner delivers a resumption cursor only when the
page loop falls through with the cancel flag clear at the after-loop
check (the page-budget path). First part: on that path the `scan_paused`
event carries `next_page = start_page + k` where exactly the logical pages
`start_page, …, start_page + k - 1` were fetched — a correct resumption
token. Second part (exclusivity, for every session): either no event of
the session carries a `next_page` cursor at all — which covers cancelled
sessions (which emit `idle`), rate-limited sessions (which plain-return),
fetch-error, empty-page and configuration-error sessions — or the session
took the budget path (loop fell through, cancel clear) and its one and
only cursor-carrying event is the `scan_paused` carrying `current_page`. -/
theorem C6_amended_cursor_only_on_budget (env : ScanEnv)
    (cfg : SourceConfig) (sp : Nat) :
    (((cfg.apiUrl).getD "").isEmpty = false →
      (perform_api_scan env cfg sp).exitKind = .fellThrough →
      (env.flags PAGES_PER_SCAN).scanCancelled = false →
      ∃ k, (perform_api_scan env cfg sp).acc.logicalPages =
          List.range' sp k ∧
        Event.status "scan_paused" (some (sp + k)) ∈
          (perform_api_scan env cfg sp).acc.events ∧
        (perform_api_scan env cfg sp).currentPage = sp + k) ∧
    ((∀ e ∈ (perform_api_scan env cfg sp).acc.events,
        e.carriesCursor = false)
     ∨ ((perform_api_scan env cfg sp).exitKind = .fellThrough ∧
        (env.flags PAGES_PER_SCAN).scanCancelled = false ∧
        ∃ pre post, (perform_api_scan env cfg sp).acc.events =
            pre ++ [.status "scan_paused"
              (some (perform_api_scan env cfg sp).currentPage)] ++ post ∧
          (∀ e ∈ pre, e.carriesCursor = false) ∧
          (∀ e ∈ post, e.carriesCursor = false))) := by
  constructor
  · intro hurl hfell hnc
    have hek : (scanLoop env cfg PAGES_PER_SCAN 0 sp
        ⟨[.status "scanning" none] ++
           log_event_and_update_stats env.logAvailable "scan_started",
         [], [], []⟩).exitKind = .fellThrough := by
      rw [← perform_exitKind env cfg sp hurl]
      exact hfell
    rcases hloop : scanLoop env cfg PAGES_PER_SCAN 0 sp
        ⟨[.status "scanning" none] ++
           log_event_and_update_stats env.logAvailable "scan_started",
         [], [], []⟩ with ⟨acc2, cp, ek⟩
    rw [hloop] at hek
    have hek2 : ek = LoopExit.fellThrough := hek
    subst hek2
    obtain ⟨hpages, hle⟩ := scanLoop_pages env cfg PAGES_PER_SCAN 0 sp _
      acc2 cp hloop
    unfold perform_api_scan
    rw [hurl]
    simp only [Bool.not_false, if_true]
    rw [hloop]
    simp only [hnc, Bool.false_eq_true, if_false]
    refine ⟨cp - sp, ?_, ?_, ?_⟩
    · simpa using hpages
    · rw [show sp + (cp - sp) = cp from by omega]
      simp
    · omega
  · exact perform_cursor_dichotomy env cfg sp

/-- C3 (code bug): with the manual-pause flag set at every observation and
never cleared, `is_manually_paused.wait()` returns immediately (the event
waited on is already set) and each pause check consumes one `range`
iteration of the page budget: the session emits ten `manually_paused`
status events, fetches nothing, and then terminates with a `scan_paused`
event while still paused — instead of blocking until the flag is cleared
without consuming budget, as specified. -/
theorem C3_pause_consumes_budget :
    (perform_api_scan scanEnvPaused cfgFix 3).acc.events =
        [Event.status "scanning" none] ++
          List.replicate PAGES_PER_SCAN (Event.status "manually_paused" none)
          ++ [Event.status "scan_paused" (some 3)] ∧
    (perform_api_scan scanEnvPaused cfgFix 3).acc.fetched = [] ∧
    (perform_api_scan scanEnvPaused cfgFix 3).currentPage = 3 := by
  refine ⟨?_, rfl, rfl⟩
  rfl

theorem process_result_cases (la : Bool) (ip : String → Option Int)
    (store : Store) (ids : Finset String) (item : J) (label : String)
    (cfg : SourceConfig) :
    ((process_and_queue_api_item la ip store ids item label cfg).processedIds
        = ids ∧
      (process_and_queue_api_item la ip store ids item label cfg).tasks = [])
    ∨ ∃ u, u ∉ ids ∧
        (process_and_queue_api_item la ip store ids item label
            cfg).processedIds = insert u ids ∧
        ((process_and_queue_api_item la ip store ids item label cfg).tasks
            = []
         ∨ ∃ d : ItemData,
            (process_and_queue_api_item la ip store ids item label cfg).tasks
              = [d] ∧ d.id = u) := by
  by_cases ht : optTruthy (getNested item cfg.idPath) = true
  · by_cases hm :
      cfg.name ++ "-" ++ pyStrOpt (getNested item cfg.idPath) ∈ ids
    · left
      constructor <;> (unfold process_and_queue_api_item; simp [ht, hm])
    · right
      refine ⟨cfg.name ++ "-" ++ pyStrOpt (getNested item cfg.idPath), hm,
        ?_, ?_⟩ <;>
        cases hcd : (if store.available = true
            then store.find
              (cfg.name ++ "-" ++ pyStrOpt (getNested item cfg.idPath))
            else none) with
      | some doc =>
        by_cases hv : validCachedSummary doc.ai_summary = true
        · unfold process_and_queue_api_item
          simp [ht, hm, hcd, hv]
        · obtain ⟨d, hsh, hdid, -⟩ := processFreshPath_shape la ip
            (insert
              (cfg.name ++ "-" ++ pyStrOpt (getNested item cfg.idPath)) ids)
            item label cfg
            (cfg.name ++ "-" ++ pyStrOpt (getNested item cfg.idPath))
            (getNested item cfg.idPath)
          have hpr : process_and_queue_api_item la ip store ids item label
              cfg = processFreshPath la ip
                (insert
                  (cfg.name ++ "-" ++ pyStrOpt (getNested item cfg.idPath))
                  ids)
                item label cfg
                (cfg.name ++ "-" ++ pyStrOpt (getNested item cfg.idPath))
                (getNested item cfg.idPath) := by
            unfold process_and_queue_api_item
            simp [ht, hm, hcd, hv]
          rw [hpr, hsh] <;> exact Or.inr ⟨d, rfl, hdid⟩
      | none =>
        obtain ⟨d, hsh, hdid, -⟩ := processFreshPath_shape la ip
          (insert
            (cfg.name ++ "-" ++ pyStrOpt (getNested item cfg.idPath)) ids)
          item label cfg
          (cfg.name ++ "-" ++ pyStrOpt (getNested item cfg.idPath))
          (getNested item cfg.idPath)
        have hpr : process_and_queue_api_item la ip store ids item label
            cfg = processFreshPath la ip
              (insert
                (cfg.name ++ "-" ++ pyStrOpt (getNested item cfg.idPath))
                ids)
              item label cfg
              (cfg.name ++ "-" ++ pyStrOpt (getNested item cfg.idPath))
              (getNested item cfg.idPath) := by
          unfold process_and_queue_api_item
          simp [ht, hm, hcd]
        rw [hpr, hsh] <;> exact Or.inr ⟨d, rfl, hdid⟩
  · left
    simp only [Bool.not_eq_true] at ht
    constructor <;> (unfold process_and_queue_api_item; simp [ht])

theorem generate_cases (la : Bool) (env : AIEnv) (flags : Flags)
    (store : Store) (ids : Finset String) (d : ItemData) :
    ((generate_summary_and_update la env flags store ids d).released = true ∧
      (generate_summary_and_update la env flags store ids d).processedIds =
        ids.erase d.id)
    ∨ ((generate_summary_and_update la env flags store ids d).released =
          false ∧
      (generate_summary_and_update la env flags store ids d).processedIds =
        ids) := by
  unfold generate_summary_and_update
  by_cases h : (flags.manuallyPaused || flags.scanCancelled) = true
  · left
    simp [h]
  · right
    simp only [h, Bool.false_eq_true, if_false]
    constructor <;> (split <;> rfl)

theorem sysStep_dedup_bound (s : SysState) (st : SysStep)
    (h : ∀ x : String, (s.submissions).count x ≤ (s.releases).count x +
        (if x ∈ s.processedIds then 1 else 0)) :
    ∀ x : String, ((sysStep s st).submissions).count x ≤
      ((sysStep s st).releases).count x +
        (if x ∈ (sysStep s st).processedIds then 1 else 0) := by
  intro x
  cases st with
  | setFlags f => simpa [sysStep] using h x
  | callProc la ip item ml cfg =>
    rcases process_result_cases la ip s.store s.processedIds item ml cfg with
      ⟨hids, htasks⟩ | ⟨u, hu, hids, htasks | ⟨d, htasks, hdid⟩⟩
    · simp only [sysStep, hids, htasks, List.map_nil, List.append_nil]
      exact h x
    · simp only [sysStep, hids, htasks, List.map_nil, List.append_nil]
      have hx := h x
      by_cases hmem : x ∈ s.processedIds
      · simp only [Finset.mem_insert_of_mem hmem, if_true]
        simp only [hmem, if_true] at hx
        omega
      · simp only [hmem, if_false] at hx
        by_cases hins : x ∈ insert u s.processedIds <;>
          simp only [hins, if_true, if_false] <;> omega
    · simp only [sysStep, hids, htasks, List.map_cons, List.map_nil,
        List.count_append, hdid]
      have hx := h x
      by_cases hxu : x = u
      · subst hxu
        simp [hu] at hx
        simp [Finset.mem_insert_self, List.count_cons]
        omega
      · have hux : ¬u = x := fun he => hxu he.symm
        simp [List.count_cons, hux, hxu, Finset.mem_insert]
        omega
  | runTask i la env =>
    cases hti : (s.tasks).get? i with
    | none =>
      simp only [sysStep, hti]
      exact h x
    | some d =>
      rcases generate_cases la env s.flags s.store s.processedIds d with
        ⟨hr, hids⟩ | ⟨hr, hids⟩
      · simp only [sysStep, hti, hr, hids, if_true, List.count_append]
        have hx := h x
        by_cases hxd : x = d.id
        · subst hxd
          simp [Finset.not_mem_erase, List.count_cons]
          by_cases hmem : d.id ∈ s.processedIds
          · simp [hmem] at hx
            omega
          · simp [hmem] at hx
            omega
        · have hdx : ¬d.id = x := fun he => hxd he.symm
          simp [List.count_cons, hxd, hdx, Finset.mem_erase]
          omega
      · simp only [sysStep, hti, hr, hids, Bool.false_eq_true, if_false,
          List.append_nil]
        exact h x

theorem sysRun_dedup_bound (store : Store) (flags : Flags)
    (steps : List SysStep) : ∀ x : String,
    ((sysRun (initSys store flags) steps).submissions).count x ≤
      ((sysRun (initSys store flags) steps).releases).count x + 1 := by
  have main : ∀ (stepsA : List SysStep) (s : SysState),
      (∀ x, (s.submissions).count x ≤ (s.releases).count x +
          (if x ∈ s.processedIds then 1 else 0)) →
      ∀ x, ((sysRun s stepsA).submissions).count x ≤
        ((sysRun s stepsA).releases).count x +
          (if x ∈ (sysRun s stepsA).processedIds then 1 else 0) := by
    intro stepsA
    induction stepsA with
    | nil => intro s h; exact h
    | cons a rest ih =>
      intro s h
      exact ih (sysStep s a) (sysStep_dedup_bound s a h)
  intro x
  have h0 : ∀ x : String, ((initSys store flags).submissions).count x ≤
      ((initSys store flags).releases).count x +
        (if x ∈ (initSys store flags).processedIds then 1 else 0) := by
    intro y
    simp [initSys]
  refine le_trans (main steps (initSys store flags) h0 x) ?_
  by_cases hx :
      x ∈ (sysRun (initSys store flags) steps).processedIds <;> simp [hx]

/-- C1 amended: the session dedup gate guarantees at-most-once submission
only while the composite id remains in the dedup set: a call of
`process_and_queue_api_item` whose computed composite id is already in the
set returns at once with no event and no submission; and over any sequence
of pipeline steps, the number of times an id is submitted to the AI pool
never exceeds one more than the number of times an aborted enrichment task
released that id's reservation. (The unqualified "at most once per process
lifetime" fails because the release path of the enrichment task allows a
later rescan to resubmit the same id.) -/
theorem C1_amended_dedup_gate :
    (∀ (la : Bool) (ip : String → Option Int) (store : Store)
        (ids : Finset String) (item : J) (label : String)
        (cfg : SourceConfig),
        cfg.name ++ "-" ++ pyStrOpt (getNested item cfg.idPath) ∈ ids →
        process_and_queue_api_item la ip store ids item label cfg =
          ⟨ids, [], []⟩) ∧
    (∀ (store : Store) (flags : Flags) (steps : List SysStep) (x : String),
        ((sysRun (initSys store flags) steps).submissions).count x ≤
          ((sysRun (initSys store flags) steps).releases).count x + 1) := by
  constructor
  · intro la ip store ids item label cfg hmem
    unfold process_and_queue_api_item
    by_cases ht : optTruthy (getNested item cfg.idPath) = true
    · simp [ht, hmem]
    · simp only [Bool.not_eq_true] at ht
      simp [ht]
  · exact fun store flags steps x => sysRun_dedup_bound store flags steps x

/-- C1 counterexample: in the concrete trace `c1Steps` — match and submit
the item, run its enrichment task while manually paused (which releases
the dedup reservation), resume, and match the item again — the composite
id `S-7` is submitted to the AI-enrichment pool twice within one process
lifetime, refuting "at most once per process lifetime". -/
theorem C1_counterexample_double_submission :
    (sysRun (initSys noStoreFix clearFlags) c1Steps).submissions =
        ["S-7", "S-7"] ∧
    ((sysRun (initSys noStoreFix clearFlags) c1Steps).submissions).count
        "S-7" = 2 := by
  constructor
  · rfl
  · rfl

/-- Witness for C10: an item whose genuine provider id is the number `0`
is dropped. -/
theorem C10_falsy_id_dropped_witness :
    optTruthy (getNested itemZeroId cfgFix.idPath) = false ∧
    process_and_queue_api_item true (fun _ => none) noStoreFix ∅ itemZeroId
      "MongoDB" cfgFix = ⟨∅, [], []⟩ :=
  ⟨by decide,
   C10_falsy_id_dropped true (fun _ => none) noStoreFix ∅ itemZeroId
     "MongoDB" cfgFix (by decide)⟩

/-- Witness for C7: a task that starts while the manual-pause flag is set
releases its reservation and emits nothing. -/
theorem C7_abort_releases_reservation_witness :
    generate_summary_and_update true aiEnvFix ⟨true, false, false⟩ noStoreFix
        {"S-7"} taskFix =
      ⟨({"S-7"} : Finset String).erase taskFix.id, noStoreFix,
       ⟨true, false, false⟩, [], false, false, true⟩ :=
  C7_abort_releases_reservation true aiEnvFix ⟨true, false, false⟩ noStoreFix
    {"S-7"} taskFix (Or.inl rfl)

/-- Witness for C2: replaying the stored record for `S-7` emits exactly
the reconstructed `api_item` and the cached `summary_update`. -/
theorem C2_cached_replay_witness :
    process_and_queue_api_item true (fun _ => none) cachedStoreFix ∅ itemFix
        "MongoDB" cfgFix =
      ⟨insert "S-7" ∅,
       [.apiItem ⟨"S-7", "S", some (.s "bee"), 99, some (.s "T"),
          some (.s "u"), some (.s "x"), "MongoDB", "complete"⟩,
        .summaryUpdate "S-7" "A cached summary"],
       []⟩ :=
  C2_cached_replay true (fun _ => none) cachedStoreFix ∅ itemFix "MongoDB"
    cfgFix cachedRecFix "A cached summary" (by decide) (by decide) rfl rfl
    rfl (by decide)

/-- Witness for C5 at a concrete rate-limit-paused state. -/
theorem C5_rate_limit_freeze_witness :
    ((get_llm_summary aiEnvFix ⟨false, true, false⟩ "p").providerCalled =
          false ∧
      pyStartswith (get_llm_summary aiEnvFix ⟨false, true, false⟩ "p").text
        "[Status: Paused" = true) ∧
    ((get_llm_summary aiEnvFix ⟨false, true, false⟩ "p").flags).rateLimitPaused
        = true ∧
    (applyRoute .cancelScan ⟨false, true, false⟩).rateLimitPaused = true :=
  ⟨C5_rate_limit_freeze.1 aiEnvFix ⟨false, true, false⟩ "p" rfl rfl,
   C5_rate_limit_freeze.2.1 aiEnvFix ⟨false, true, false⟩ "p" rfl,
   C5_rate_limit_freeze.2.2 .cancelScan ⟨false, true, false⟩ (by decide) rfl⟩

/-- Witness for C4: a clean ten-page session starting at page 1 ends with
`scan_paused` carrying `next_page = 11`. -/
theorem C4_budget_exhaustion_cursor_witness :
    ((perform_api_scan scanEnvClear cfgFix 1).acc.events).getLast? =
        some (.status "scan_paused" (some 11)) ∧
    (perform_api_scan scanEnvClear cfgFix 1).currentPage = 11 :=
  C4_budget_exhaustion_cursor scanEnvClear cfgFix 1 rfl (fun _ => rfl) rfl
    (fun _ => ⟨goodBodyFix, [itemFix], rfl, rfl, List.cons_ne_nil _ _⟩)

/-- Witness for the amended C6: the budget path starting at page 2 fetches
exactly pages 2–11 and carries their successor as the cursor. -/
theorem C6_amended_cursor_only_on_budget_witness :
    ∃ k, (perform_api_scan scanEnvClear cfgFix 2).acc.logicalPages =
        List.range' 2 k ∧
      Event.status "scan_paused" (some (2 + k)) ∈
        (perform_api_scan scanEnvClear cfgFix 2).acc.events ∧
      (perform_api_scan scanEnvClear cfgFix 2).currentPage = 2 + k :=
  (C6_amended_cursor_only_on_budget scanEnvClear cfgFix 2).1 rfl rfl rfl

/-- Witness for C8 at a concrete fresh-path item with an empty
interleaving. -/
theorem C8_pending_before_summary_witness :
    ∃ d : ItemData,
      (process_and_queue_api_item true (fun _ => none) noStoreFix ∅ itemFix
          "MongoDB" cfgFix).tasks = [d]
      ∧ d.id = cfgFix.name ++ "-" ++
          pyStrOpt (getNested itemFix cfgFix.idPath)
      ∧ d.summaryStatus = "pending"
      ∧ ∃ A B,
          (process_and_queue_api_item true (fun _ => none) noStoreFix ∅
                itemFix "MongoDB" cfgFix).events
              ++ ([] ++
                (generate_summary_and_update true aiEnvFix clearFlags
                  noStoreFix ∅ d).events)
            = A ++ B
          ∧ Event.apiItem d ∈ A
          ∧ ∃ txt, Event.summaryUpdate d.id txt ∈ B :=
  C8_pending_before_summary true true (fun _ => none) noStoreFix noStoreFix
    ∅ ∅ itemFix "MongoDB" cfgFix aiEnvFix clearFlags [] (by decide)
    (by decide) (fun _ h => Option.noConfusion h) rfl rfl

/-- Witness for the amended C1 at a concrete state: a call whose id is
already reserved is a no-op, and the submission count in the
counterexample trace still respects the release-adjusted bound. -/
theorem C1_amended_dedup_gate_witness :
    process_and_queue_api_item true (fun _ => none) noStoreFix
        (insert "S-7" ∅) itemFix "MongoDB" cfgFix =
      ⟨insert "S-7" ∅, [], []⟩ ∧
    ((sysRun (initSys noStoreFix clearFlags) c1Steps).submissions).count
        "S-7" ≤
      ((sysRun (initSys noStoreFix clearFlags) c1Steps).releases).count "S-7"
        + 1 :=
  ⟨C1_amended_dedup_gate.1 true (fun _ => none) noStoreFix (insert "S-7" ∅)
     itemFix "MongoDB" cfgFix (by decide),
   C1_amended_dedup_gate.2 noStoreFix clearFlags c1Steps "S-7"⟩

end Sauron
